import Mathlib

/-!
Verification of the Hybrid Synchronization and Failover Engine: the data
layer of the 2D-Mandrake IT asset/ticket inventory tool, a shallow
embedding of `src/database_manager.py` and `src/utils/sshtunnel_helper.py`.

Components modelled here:
* ConnectionResolver — `DatabaseManager.__init__`, `_test_cloud_connection`,
  `_get_cloud_conn` (probe order primary, backup, local cache).
* QueryExecutor — `DatabaseManager.execute` with its MySQL-to-SQLite
  dialect translation and its fallback-on-failure behaviour.
* SyncEngine — `_sync_data` (push then file-sync then pull) and
  `_push_local_tickets` (reconciliation-key push with primary-key remap).
* FileReplicator — `_sync_files` (presence-based bidirectional copy).
* CrossInstanceReplicator — `replicate_cloud_db` (INSERT IGNORE per table).
* TunnelProxy — `SSHTunnel.start`/`stop` and the per-host reuse guard in
  `_connect_to_source`.
* SLA lookup — `calculate_sla_due_date`.
-/

namespace Mandrake

/-! ## ConnectionResolver -/

/-- Outcome of one `_connect_to_source` probe as observed inside
`_get_cloud_conn`: the secrets section may be absent, the connection
attempt may raise, or it returns a connection object whose
`is_connected()` answers `b`. -/
inductive Probe
| absent
| raised (msg : String)
| conn (isConnected : Bool)
deriving DecidableEq

/-- The two cloud secrets sections `[mysql]` (primary) and `[mysql_backup]`. -/
structure Secrets where
  primary : Probe
  backup : Probe
deriving DecidableEq

/-- A probe yields a usable connection exactly when it neither is absent nor
raised and the returned connection reports `is_connected()`. Exceptions
raised during a probe are caught inside `_get_cloud_conn` (printed, then
the next candidate is tried), which is why this is a total Bool. -/
def probeOk : Probe → Bool
| .conn true => true
| _ => false

/-- Which cloud node answered: the value stored in `self.cloud_source`. -/
inductive CloudSource | PRIMARY | BACKUP
deriving DecidableEq

/-- The value of `self.mode`. -/
inductive Mode | PENDING | CLOUD | LOCAL
deriving DecidableEq

/-- Models `_get_cloud_conn`: try the `[mysql]` section first, then
`[mysql_backup]`; every per-probe exception is caught and treated as a
failed candidate; returns the connection together with the recorded
`cloud_source`, or `none` when no candidate answered. -/
def getCloudConn (s : Secrets) : Option CloudSource :=
  if probeOk s.primary then some .PRIMARY
  else if probeOk s.backup then some .BACKUP
  else none

/-- Models `_test_cloud_connection`: true exactly when `_get_cloud_conn`
produced a connected connection. The surrounding try/except means this
never propagates an exception. -/
def testCloudConnection (s : Secrets) : Bool :=
  (getCloudConn s).isSome

/-- The fields of `DatabaseManager` set during `__init__` that the
resolver claims speak about. `schemaEnsured` records whether
`_ensure_local_schema` has run. -/
structure ManagerInit where
  mode : Mode
  cloud_source : Option CloudSource
  schemaEnsured : Bool
deriving DecidableEq

/-- Models the connection-resolution part of `DatabaseManager.__init__`:
if `_test_cloud_connection` succeeds the mode is CLOUD (and `sync()` then
runs `_sync_schema`, which calls `_ensure_local_schema`); otherwise the
mode is LOCAL and `_ensure_local_schema` is called directly. -/
def initManager (s : Secrets) : ManagerInit :=
  match getCloudConn s with
  | some src => { mode := .CLOUD, cloud_source := some src, schemaEnsured := true }
  | none => { mode := .LOCAL, cloud_source := none, schemaEnsured := true }

/-! ## QueryExecutor -/

/-- The MySQL-to-SQLite rewrite performed by `execute` in LOCAL mode:
positional markers, the NOW() function, INSERT IGNORE, and the crude
ON DUPLICATE KEY UPDATE rewrite that is applied only to the two known
control-mapping upserts (everything else passes through unmodified). -/
def translateQuery (q : String) : String :=
  let q1 := (q.replace "%s" "?").replace "NOW()" "datetime(\x27now\x27)"
  let q2 := q1.replace "INSERT IGNORE" "INSERT OR IGNORE"
  if (q2.containsSubstr "ON DUPLICATE KEY UPDATE") &&
     ((q2.containsSubstr "asset_controls") || (q2.containsSubstr "asset_nist_controls")) then
    (((q2.replace "INSERT INTO" "INSERT OR REPLACE INTO").splitOn "ON DUPLICATE").headD q2)
  else q2

/-- What `execute` hands back to the caller: fetched rows, a success
boolean, a failure boolean (local error path, which shows `st.error` and
returns `[]` or `False`), or nothing (PENDING mode falls through both
branches). -/
inductive ExecResult
| rows (rs : List String)
| success
| failure
| noResult
deriving DecidableEq

/-- Behaviour of the two physical backends on a (query, params) pair:
`Except.error` is a raised exception, `Except.ok` the fetched row set. -/
structure Backends where
  cloudExec : String → List String → Except String (List String)
  localExec : String → List String → Except String (List String)

/-- The LOCAL branch of `execute`: translate the dialect, run against
SQLite; an exception is caught, reported via `st.error`, and turned into
`[]` (fetch) or `False` (no fetch). -/
def executeLocal (b : Backends) (q : String) (ps : List String) (fetch : Bool) : ExecResult :=
  match b.localExec (translateQuery q) ps with
  | .ok rs => if fetch then .rows rs else .success
  | .error _ => if fetch then .rows [] else .failure

/-- Models `DatabaseManager.execute`: in CLOUD mode, run the raw query
against the cloud backend; on success return rows or commit; on ANY
exception, switch `self.mode` to LOCAL and re-issue the same call, which
then runs the translated query against the local backend. Returns the
result together with the mode after the call. -/
def execute (b : Backends) (mode : Mode) (q : String) (ps : List String) (fetch : Bool) :
    ExecResult × Mode :=
  match mode with
  | .CLOUD =>
    match b.cloudExec q ps with
    | .ok rs => ((if fetch then .rows rs else .success), .CLOUD)
    | .error _ => (executeLocal b q ps fetch, .LOCAL)
  | .LOCAL => (executeLocal b q ps fetch, .LOCAL)
  | .PENDING => (.noResult, .PENDING)

/-- A backend pair where the cloud raises a pure dialect fault (a MySQL
syntax error, not a connectivity fault) while the local backend would
answer the translated query. -/
def dialectFaultBackends : Backends where
  cloudExec := fun _ _ => .error "1064: You have an error in your SQL syntax"
  localExec := fun _ _ => .ok ["local row"]

/-! ## SLA lookup -/

/-- The SLA table of `calculate_sla_due_date` (minutes per priority). -/
def slaTable : List (String × Nat) :=
  [("Critical", 240), ("High", 480), ("Medium", 1440), ("Low", 4320)]

/-- `slas.get(priority, 1440)`. -/
def slaMinutes (priority : String) : Nat :=
  (slaTable.lookup priority).getD 1440

/-- Models `calculate_sla_due_date`, with time measured in minutes:
`datetime.now() + timedelta(minutes=slas.get(priority, 1440))`. -/
def calculate_sla_due_date (now : Nat) (priority : String) : Nat :=
  now + slaMinutes priority

/-! ## FileReplicator -/

/-- Directory contents by filename (regular files only, which is all
`_sync_files` copies). -/
structure DirState where
  localFiles : Finset String
  networkFiles : Finset String
deriving DecidableEq

/-- Models `_sync_files`: skip when the network path is unset, identical
to the local path, or unreachable; otherwise pass 1 copies every network
file missing locally into the local dir, then pass 2 lists the (now
updated) local dir and copies every file missing on the network side. -/
def syncFiles (netConfigured samePath netReachable : Bool) (d : DirState) : DirState :=
  if netConfigured = false ∨ samePath = true ∨ netReachable = false then d
  else
    let localAfter := d.localFiles ∪ d.networkFiles
    { localFiles := localAfter, networkFiles := d.networkFiles ∪ localAfter }

/-! ## CrossInstanceReplicator and pull upserts -/

/-- A generic table row: primary-key column plus the remaining payload. -/
structure DbRow where
  pk : Nat
  payload : String
deriving DecidableEq

/-- True when some row of `rows` has primary key `k`. -/
def hasPk (rows : List DbRow) (k : Nat) : Bool :=
  rows.any (fun r => r.pk == k)

/-- MySQL `INSERT IGNORE` of a single row: a row whose primary key already
exists on the target is left untouched, otherwise it is appended. -/
def insertIgnoreRow (tgt : List DbRow) (r : DbRow) : List DbRow :=
  if hasPk tgt r.pk then tgt else tgt ++ [r]

/-- One table of `replicate_cloud_db`: fetch the full source rowset; if it
is empty the table is skipped; otherwise every source row is bulk-inserted
into the target with `INSERT IGNORE`. -/
def replicateTable (src tgt : List DbRow) : List DbRow :=
  if src.isEmpty then tgt else src.foldl insertIgnoreRow tgt

/-- SQLite `INSERT OR REPLACE` of a single row: the target row with a
conflicting primary key (if any) is removed and the incoming row stored. -/
def insertOrReplaceRow (l : List DbRow) (r : DbRow) : List DbRow :=
  l.filter (fun x => x.pk != r.pk) ++ [r]

/-- One table of the pull phase of `_sync_data`: fetch the full remote
snapshot; `if not rows: continue` skips the table entirely when the
snapshot is empty; otherwise each remote row is `INSERT OR REPLACE`d into
the local cache. -/
def pullTable (localRows remoteRows : List DbRow) : List DbRow :=
  if remoteRows.isEmpty then localRows else remoteRows.foldl insertOrReplaceRow localRows

/-! ## TunnelProxy -/

/-- The fields of an `SSHTunnel` instance that the reuse guard reads:
`ssh_host` and the bound local port returned by `start()`. -/
structure TunnelRec where
  host : String
  port : Nat
deriving DecidableEq

/-- The tunnel-related state of a `DatabaseManager`: `self.ssh_tunnel`
(with its bound `self.ssh_local_port`), the set of open SSH transports
(one list entry per open `paramiko` client, tagged with its host), and a
fresh-port counter standing for the OS choosing an unused local port. -/
structure TunnelMgr where
  tunnel : Option TunnelRec
  transports : List String
  nextPort : Nat
deriving DecidableEq

/-- `SSHTunnel.stop()`: closes that tunnel's transport. -/
def tunnelStop (m : TunnelMgr) (host : String) : TunnelMgr :=
  { m with transports := m.transports.filter (fun h => h != host) }

/-- `SSHTunnel(...)` followed by `.start()`: connects a new SSH transport
to `host`, binds a fresh local port, and records the tunnel and port on
the manager. -/
def tunnelStart (m : TunnelMgr) (host : String) : TunnelMgr × Nat :=
  ({ tunnel := some ⟨host, m.nextPort⟩,
     transports := m.transports ++ [host],
     nextPort := m.nextPort + 1 }, m.nextPort)

/-- The SSH branch of `_connect_to_source`: reuse the existing tunnel when
one is recorded for the same host (returning its already-bound local
port); otherwise stop the old tunnel (if any) and start a new one. -/
def connectToSource (m : TunnelMgr) (host : String) : TunnelMgr × Nat :=
  match m.tunnel with
  | some tun =>
    if tun.host = host then (m, tun.port)
    else tunnelStart (tunnelStop m tun.host) host
  | none => tunnelStart m host

/-- Consistency between the recorded tunnel and the open transports: no
tunnel means no transport, and a recorded tunnel means exactly the one
transport to its host. Holds of a fresh manager and is preserved by
`connectToSource`. -/
def tunnelInv (m : TunnelMgr) : Prop :=
  (m.tunnel = none → m.transports = []) ∧
  (∀ t, m.tunnel = some t → m.transports = [t.host])

/-! ## SyncEngine: ordering of the phases of `_sync_data` -/

/-- The observable phases of one `_sync_data` run, in execution order.
The push and file-sync phases may fail (their exceptions are caught and
logged); each pull table may fail individually without stopping the rest. -/
inductive SyncEvent
| pushTickets (ok : Bool)
| fileSync (ok : Bool)
| pullTable (name : String)
deriving DecidableEq

/-- The table list hard-coded in `_sync_data`, in its pull order. -/
def syncTables : List String :=
  ["assets", "tickets", "iso_controls", "nist_controls", "policies",
   "asset_controls", "asset_nist_controls", "policy_nist_mappings", "ticket_attachments",
   "kpu_business_services_level1", "kpu_business_services_level2", "kpu_technical_services",
   "kpu_enterprise_assets", "kpu_component_assets", "kpu_enterprise_software",
   "kpu_enterprise_computing_machines"]

/-- The phase trace of one `_sync_data` run: `_push_local_tickets` first
(inside try/except, so it runs whether or not it succeeds), then
`_sync_files`, then one pull per table of `syncTables`. -/
def syncDataTrace (pushOk fileOk : Bool) : List SyncEvent :=
  [.pushTickets pushOk, .fileSync fileOk] ++ syncTables.map .pullTable

/-! ## SyncEngine: `_push_local_tickets` -/

/-- A ticket row restricted to the columns `_push_local_tickets` touches:
the primary key `id` and the nine columns its cloud INSERT copies
(`asset_id`, `ticket_type`, `title`, `description`, `priority`, `status`,
`logged_by`, `created_at`, `updated_at`). The reconciliation key is
(title, logged_by, asset_id). -/
structure Ticket where
  id : Nat
  asset_id : Nat
  ticket_type : String
  title : String
  description : String
  priority : String
  status : String
  logged_by : String
  created_at : String
  updated_at : String
deriving DecidableEq

/-- A `ticket_attachments` row: its own id, the parent `ticket_id` that
the push remaps, and the payload columns. -/
structure Attachment where
  id : Nat
  ticket_id : Nat
  file_name : String
  file_path : String
  uploaded_at : String
deriving DecidableEq

/-- The remote-existence probe of the push:
`SELECT id FROM tickets WHERE title=%s AND logged_by=%s AND asset_id=%s`. -/
def reconMatch (r t : Ticket) : Bool :=
  r.title == t.title && r.logged_by == t.logged_by && r.asset_id == t.asset_id

/-- True when some cloud ticket matches `t`'s reconciliation key. -/
def hasMatch (remote : List Ticket) (t : Ticket) : Bool :=
  remote.any (fun r => reconMatch r t)

/-- Joint state of the push loop: the local `tickets` and
`ticket_attachments` tables, the cloud `tickets` table, and the cloud
AUTO_INCREMENT counter (`cur_cloud.lastrowid` of the next insert). -/
structure PushState where
  tickets : List Ticket
  atts : List Attachment
  remote : List Ticket
  nextRemoteId : Nat
deriving DecidableEq

/-- One iteration of the push loop on snapshot element `t`: if the cloud
already has a reconciliation-key match the ticket is skipped; otherwise
the ticket is inserted into the cloud (receiving the AUTO_INCREMENT id),
and locally `UPDATE tickets SET id=new WHERE id=old` and
`UPDATE ticket_attachments SET ticket_id=new WHERE ticket_id=old` run. -/
def pushStep (s : PushState) (t : Ticket) : PushState :=
  if hasMatch s.remote t then s
  else
    { tickets := s.tickets.map (fun r => if r.id = t.id then { r with id := s.nextRemoteId } else r),
      atts := s.atts.map (fun a => if a.ticket_id = t.id then { a with ticket_id := s.nextRemoteId } else a),
      remote := s.remote ++ [{ t with id := s.nextRemoteId }],
      nextRemoteId := s.nextRemoteId + 1 }

/-- Models `_push_local_tickets`: snapshot the local `tickets` table
(`SELECT * FROM tickets`), then run the push loop over that snapshot. -/
def pushLocalTickets (tickets : List Ticket) (atts : List Attachment)
    (remote : List Ticket) (nextRemoteId : Nat) : PushState :=
  tickets.foldl pushStep ⟨tickets, atts, remote, nextRemoteId⟩

/-! ## Theorems: ConnectionResolver (C4, C5) -/

/-- Claim C4: connection resolution probes the candidates in the fixed
order remote-primary, remote-secondary, local-cache and never skips a
reachable earlier candidate: a reachable primary always wins (mode CLOUD,
source PRIMARY), and whenever the primary refuses connections while the
secondary accepts, the resolver ends with mode CLOUD and source BACKUP
(the code's name for SECONDARY). -/
theorem resolver_probe_order (s : Secrets) :
    (probeOk s.primary = true →
      (initManager s).mode = .CLOUD ∧ (initManager s).cloud_source = some .PRIMARY) ∧
    (probeOk s.primary = false → probeOk s.backup = true →
      (initManager s).mode = .CLOUD ∧ (initManager s).cloud_source = some .BACKUP) := by
  constructor
  · intro hp
    simp [initManager, getCloudConn, hp]
  · intro hp hb
    simp [initManager, getCloudConn, hp, hb]

/-- A configuration where the primary probe raises (connection refused)
and the backup probe returns a connected connection. -/
def refusedPrimarySecrets : Secrets :=
  ⟨.raised "Connection refused", .conn true⟩

/-- Witness for C4: with a refusing primary and an accepting secondary,
the resolver ends in CLOUD mode on the BACKUP source. -/
theorem resolver_probe_order_witness :
    probeOk refusedPrimarySecrets.primary = false ∧
    probeOk refusedPrimarySecrets.backup = true ∧
    ((initManager refusedPrimarySecrets).mode = .CLOUD ∧
      (initManager refusedPrimarySecrets).cloud_source = some .BACKUP) :=
  ⟨rfl, rfl, (resolver_probe_order refusedPrimarySecrets).2 rfl rfl⟩

/-- Claim C5: whenever both remote probes fail — including by raising
exceptions, which `_get_cloud_conn` and `_test_cloud_connection` catch —
the resolver sets mode LOCAL and ensures the local schema exists; the
model's totality (probe exceptions are `Probe.raised` values consumed by
`probeOk`) reflects that no probe exception reaches the caller. -/
theorem resolver_degrades_to_local (s : Secrets)
    (hp : probeOk s.primary = false) (hb : probeOk s.backup = false) :
    (initManager s).mode = .LOCAL ∧ (initManager s).schemaEnsured = true := by
  simp [initManager, getCloudConn, hp, hb]

/-- A configuration where both remote probes raise exceptions. -/
def bothRaiseSecrets : Secrets :=
  ⟨.raised "2003: Cannot connect to MySQL server", .raised "Access denied"⟩

/-- Witness for C5: with both probes raising, the manager ends LOCAL with
the schema ensured. -/
theorem resolver_degrades_to_local_witness :
    probeOk bothRaiseSecrets.primary = false ∧
    probeOk bothRaiseSecrets.backup = false ∧
    ((initManager bothRaiseSecrets).mode = .LOCAL ∧
      (initManager bothRaiseSecrets).schemaEnsured = true) :=
  ⟨rfl, rfl, resolver_degrades_to_local bothRaiseSecrets rfl rfl⟩

/-! ## Theorems: QueryExecutor (C2) -/

/-- Claim C2 is false on the code: `execute` catches EVERY cloud
exception, switches to LOCAL and re-issues the query there; a pure
dialect fault (here a MySQL syntax error on a misspelled SELECT) is not
surfaced to the caller — the caller receives the local backend's rows and
the manager has left CLOUD mode. -/
theorem execute_dialect_fault_counterexample :
    execute dialectFaultBackends .CLOUD "SELEC id FROM tickets" [] true
      = (.rows ["local row"], .LOCAL) ∧
    (execute dialectFaultBackends .CLOUD "SELEC id FROM tickets" [] true).2 ≠ .CLOUD := by
  have h1 : execute dialectFaultBackends .CLOUD "SELEC id FROM tickets" [] true
      = (.rows ["local row"], .LOCAL) := rfl
  exact ⟨h1, by rw [h1]; simp⟩

/-- Claim C2 (amended): on every remote query failure — dialect/query
fault or connectivity fault alike, the code does not distinguish them —
`execute` switches the manager to LOCAL mode and re-issues the translated
query against the local backend; the remote fault is never surfaced to
the caller. -/
theorem execute_remote_failure_falls_back (b : Backends) (m : Mode) (q : String)
    (ps : List String) (fetch : Bool) (e : String)
    (hm : m = .CLOUD) (hc : b.cloudExec q ps = .error e) :
    execute b m q ps fetch = (executeLocal b q ps fetch, .LOCAL) := by
  subst hm
  simp [execute, hc]

/-- Witness for the amended C2: the dialect-fault backend pair falls back
to the local answer. -/
theorem execute_remote_failure_falls_back_witness :
    dialectFaultBackends.cloudExec "SELEC id FROM tickets" []
      = .error "1064: You have an error in your SQL syntax" ∧
    execute dialectFaultBackends .CLOUD "SELEC id FROM tickets" [] true
      = (executeLocal dialectFaultBackends "SELEC id FROM tickets" [] true, .LOCAL) :=
  ⟨rfl, execute_remote_failure_falls_back dialectFaultBackends .CLOUD
    "SELEC id FROM tickets" [] true "1064: You have an error in your SQL syntax" rfl rfl⟩

/-! ## Theorems: SLA lookup (C10) -/

/-- Claim C10: for every priority string outside
Critical/High/Medium/Low, the SLA due date is the current time plus 1440
minutes (the Medium default); the computation never fails or returns no
due date. -/
theorem sla_unknown_priority_default (now : Nat) (p : String)
    (h : p ∉ ["Critical", "High", "Medium", "Low"]) :
    calculate_sla_due_date now p = now + 1440 := by
  simp only [List.mem_cons, List.not_mem_nil, or_false, not_or] at h
  obtain ⟨h1, h2, h3, h4⟩ := h
  have hb1 : (p == "Critical") = false := by simp [h1]
  have hb2 : (p == "High") = false := by simp [h2]
  have hb3 : (p == "Medium") = false := by simp [h3]
  have hb4 : (p == "Low") = false := by simp [h4]
  simp [calculate_sla_due_date, slaMinutes, slaTable, List.lookup, hb1, hb2, hb3, hb4]

/-- Witness for C10 at the unknown priority "Urgent". -/
theorem sla_unknown_priority_default_witness :
    "Urgent" ∉ ["Critical", "High", "Medium", "Low"] ∧
    calculate_sla_due_date 100 "Urgent" = 100 + 1440 :=
  ⟨by decide, sla_unknown_priority_default 100 "Urgent" (by decide)⟩

/-! ## Theorems: FileReplicator (C8) -/

/-- Claim C8: with the network directory configured, distinct from the
local directory and reachable, one `_sync_files` run leaves both sides
with the same set of filenames, namely the union of the two initial
sets. -/
theorem syncFiles_converges (c s r : Bool) (d : DirState)
    (hc : c = true) (hs : s = false) (hr : r = true) :
    (syncFiles c s r d).localFiles = (syncFiles c s r d).networkFiles ∧
    (syncFiles c s r d).localFiles = d.localFiles ∪ d.networkFiles := by
  subst hc
  subst hs
  subst hr
  constructor
  · ext x
    simp [syncFiles, Finset.mem_union]
    tauto
  · ext x
    simp [syncFiles, Finset.mem_union]

/-- A pair of directories each holding one file the other lacks. -/
def dirScenario : DirState :=
  ⟨{"invoice.pdf"}, {"diagram.png"}⟩

/-- Witness for C8 on `dirScenario`. -/
theorem syncFiles_converges_witness :
    (syncFiles true false true dirScenario).localFiles
      = (syncFiles true false true dirScenario).networkFiles ∧
    (syncFiles true false true dirScenario).localFiles
      = dirScenario.localFiles ∪ dirScenario.networkFiles :=
  syncFiles_converges true false true dirScenario rfl rfl rfl

/-! ## Theorems: SyncEngine phase order (C7) -/

/-- Claim C7: on every `_sync_data` run — whatever the outcomes of the
push and file-sync phases — the push of locally-created tickets is the
first phase of the trace, and every pull-table phase occurs strictly
after it. -/
theorem sync_push_precedes_pull (p f : Bool) :
    (syncDataTrace p f).head? = some (.pushTickets p) ∧
    ∀ i (hi : i < (syncDataTrace p f).length) (name : String),
      (syncDataTrace p f).get ⟨i, hi⟩ = .pullTable name → 0 < i := by
  constructor
  · rfl
  · intro i hi name hget
    match i with
    | 0 => simp [syncDataTrace] at hget
    | Nat.succ n => exact Nat.succ_pos n

/-- Witness for C7: the pull of the assets table sits at index 2 of the
trace, strictly after the push at index 0. -/
theorem sync_push_precedes_pull_witness : (0 : Nat) < 2 :=
  (sync_push_precedes_pull true true).2 2 (by decide) "assets" (by rfl)

/-! ## Theorems: TunnelProxy (C3) -/

/-- Claim C3: tunnel start is idempotent per SSH host — connecting again
while a tunnel for the same host is recorded returns the already-bound
local port and changes nothing (in particular opens no second
transport) — and the tunnel invariant (at most one transport, the one of
the recorded tunnel's host) is preserved by every connect, so at most one
transport exists per distinct SSH host at any time. -/
theorem tunnel_start_idempotent (m : TunnelMgr) (tun : TunnelRec) (host : String)
    (ht : m.tunnel = some tun) (hh : tun.host = host) :
    connectToSource m host = (m, tun.port) ∧
    ∀ h2 : String, tunnelInv m → tunnelInv (connectToSource m h2).1 ∧
      ∀ h3 : String, (connectToSource m h2).1.transports.count h3 ≤ 1 := by
  constructor
  · simp [connectToSource, ht, hh]
  · intro h2 hinv
    have htr : m.transports = [tun.host] := hinv.2 tun ht
    by_cases hh2 : tun.host = h2
    · subst hh2
      have hcs : connectToSource m tun.host = (m, tun.port) := by
        simp [connectToSource, ht]
      rw [hcs]
      refine ⟨hinv, fun h3 => ?_⟩
      show List.count h3 m.transports ≤ 1
      rw [htr]
      simp [List.count_cons]
      split <;> omega
    · simp only [connectToSource, ht, if_neg hh2, tunnelStart, tunnelStop, htr]
      constructor
      · constructor
        · intro hnone
          simp at hnone
        · intro t hsome
          simp only [Option.some.injEq] at hsome
          subst hsome
          simp [bne_self_eq_false]
      · intro h3
        simp [bne_self_eq_false, List.count_cons]
        split <;> omega

/-- A manager holding an open tunnel to one VPS host on port 33061. -/
def vpsTunnelMgr : TunnelMgr :=
  ⟨some ⟨"vps.example.com", 33061⟩, ["vps.example.com"], 33062⟩

/-- Witness for C3: reconnecting to the same host returns port 33061 and
leaves the manager untouched. -/
theorem tunnel_start_idempotent_witness :
    vpsTunnelMgr.tunnel = some ⟨"vps.example.com", 33061⟩ ∧
    connectToSource vpsTunnelMgr "vps.example.com" = (vpsTunnelMgr, 33061) :=
  ⟨rfl, (tunnel_start_idempotent vpsTunnelMgr ⟨"vps.example.com", 33061⟩
    "vps.example.com" rfl rfl).1⟩

/-! ## Theorems: pull frame property (C9) -/

lemma mem_insertOrReplaceRow_of_ne {l : List DbRow} {r row : DbRow}
    (hmem : row ∈ l) (hne : row.pk ≠ r.pk) : row ∈ insertOrReplaceRow l r := by
  unfold insertOrReplaceRow
  exact List.mem_append_left _ (List.mem_filter.mpr ⟨hmem, by simp [hne]⟩)

lemma mem_foldl_insertOrReplaceRow (rs : List DbRow) :
    ∀ (l : List DbRow) (row : DbRow), row ∈ l → (∀ rr ∈ rs, rr.pk ≠ row.pk) →
      row ∈ rs.foldl insertOrReplaceRow l := by
  induction rs with
  | nil =>
    intro l row h _
    exact h
  | cons r rest ih =>
    intro l row h hne
    refine ih _ row (mem_insertOrReplaceRow_of_ne h ?_) (fun rr hrr => hne rr (List.mem_cons_of_mem r hrr))
    exact (hne r (List.mem_cons_self r rest)).symm

lemma mem_foldl_insertOrReplaceRow_src (rs : List DbRow) :
    ∀ (l : List DbRow) (row : DbRow), row ∈ rs.foldl insertOrReplaceRow l →
      row ∈ l ∨ row ∈ rs := by
  induction rs with
  | nil =>
    intro l row h
    exact Or.inl h
  | cons r rest ih =>
    intro l row h
    rcases ih _ row h with h1 | h1
    · unfold insertOrReplaceRow at h1
      rcases List.mem_append.mp h1 with h2 | h2
      · exact Or.inl (List.mem_filter.mp h2).1
      · simp only [List.mem_singleton] at h2
        exact Or.inr (by rw [h2]; exact List.mem_cons_self r rest)
    · exact Or.inr (List.mem_cons_of_mem r h1)

/-- Claim C9: the pull phase never deletes local data — a table whose
remote snapshot is empty is skipped entirely, local rows whose primary
key does not occur in the snapshot survive the pull unchanged, and every
row of the pulled table comes either from the previous local table or
from the remote snapshot (pull only inserts or replaces by primary
key). -/
theorem pull_never_deletes (localRows remoteRows : List DbRow) :
    (remoteRows = [] → pullTable localRows remoteRows = localRows) ∧
    (∀ row ∈ localRows, (∀ rr ∈ remoteRows, rr.pk ≠ row.pk) →
      row ∈ pullTable localRows remoteRows) ∧
    (∀ row ∈ pullTable localRows remoteRows, row ∈ localRows ∨ row ∈ remoteRows) := by
  refine ⟨fun h => by simp [pullTable, h], fun row hrow hne => ?_, fun row hrow => ?_⟩
  · unfold pullTable
    split
    · exact hrow
    · exact mem_foldl_insertOrReplaceRow remoteRows localRows row hrow hne
  · unfold pullTable at hrow
    split at hrow
    · exact Or.inl hrow
    · exact mem_foldl_insertOrReplaceRow_src remoteRows localRows row hrow

/-- Witness for C9: a local row whose key 1 is absent from the remote
snapshot (which has only key 2) survives the pull untouched. -/
theorem pull_never_deletes_witness :
    DbRow.mk 1 "local only" ∈ pullTable [DbRow.mk 1 "local only"] [DbRow.mk 2 "remote"] :=
  (pull_never_deletes [DbRow.mk 1 "local only"] [DbRow.mk 2 "remote"]).2.1
    (DbRow.mk 1 "local only") (by decide) (by decide)

/-! ## Theorems: cross-instance replication (C6) -/

lemma hasPk_iff (rows : List DbRow) (k : Nat) :
    hasPk rows k = true ↔ k ∈ rows.map DbRow.pk := by
  simp [hasPk, List.any_eq_true, List.mem_map, beq_iff_eq]

lemma mem_foldl_insertIgnoreRow (src : List DbRow) :
    ∀ (tgt : List DbRow) (row : DbRow), row ∈ tgt → row ∈ src.foldl insertIgnoreRow tgt := by
  induction src with
  | nil =>
    intro tgt row h
    exact h
  | cons a rest ih =>
    intro tgt row h
    refine ih _ row ?_
    unfold insertIgnoreRow
    split
    · exact h
    · exact List.mem_append_left _ h

lemma hasPk_foldl_mono (src : List DbRow) :
    ∀ (tgt : List DbRow) (k : Nat), hasPk tgt k = true →
      hasPk (src.foldl insertIgnoreRow tgt) k = true := by
  induction src with
  | nil =>
    intro tgt k h
    exact h
  | cons a rest ih =>
    intro tgt k h
    refine ih _ k ?_
    unfold insertIgnoreRow
    split
    · exact h
    · simp [hasPk, List.any_append] at h ⊢
      exact Or.inl h

lemma hasPk_foldl_covered (src : List DbRow) :
    ∀ (tgt : List DbRow) (r : DbRow), r ∈ src →
      hasPk (src.foldl insertIgnoreRow tgt) r.pk = true := by
  induction src with
  | nil =>
    intro tgt r h
    exact absurd h (List.not_mem_nil r)
  | cons a rest ih =>
    intro tgt r hr
    rcases List.mem_cons.mp hr with rfl | hr
    · refine hasPk_foldl_mono rest _ r.pk ?_
      unfold insertIgnoreRow
      split
      · assumption
      · simp [hasPk, List.any_append]
    · exact ih _ r hr

lemma foldl_insertIgnore_all_present (src : List DbRow) :
    ∀ (tgt : List DbRow), (∀ r ∈ src, hasPk tgt r.pk = true) →
      src.foldl insertIgnoreRow tgt = tgt := by
  induction src with
  | nil =>
    intro tgt _
    rfl
  | cons a rest ih =>
    intro tgt h
    have ha : insertIgnoreRow tgt a = tgt := by
      simp [insertIgnoreRow, h a (List.mem_cons_self a rest)]
    rw [List.foldl_cons, ha]
    exact ih tgt (fun r hr => h r (List.mem_cons_of_mem a hr))

lemma length_filter_partition (l : List Nat) (p : Nat → Bool) :
    (l.filter p).length + (l.filter (fun x => !(p x))).length = l.length := by
  induction l with
  | nil => rfl
  | cons a t ih =>
    by_cases h : p a <;> simp [List.filter_cons, h] <;> omega

lemma length_foldl_insertIgnore (src : List DbRow) :
    ∀ (tgt : List DbRow), (src.map DbRow.pk).Nodup →
      (src.foldl insertIgnoreRow tgt).length
        = tgt.length + ((src.map DbRow.pk).filter (fun p => !hasPk tgt p)).length := by
  induction src with
  | nil =>
    intro tgt _
    simp
  | cons a rest ih =>
    intro tgt hnd
    simp only [List.map_cons, List.nodup_cons] at hnd
    obtain ⟨hna, hnd⟩ := hnd
    by_cases h : hasPk tgt a.pk
    · rw [List.foldl_cons, show insertIgnoreRow tgt a = tgt from by simp [insertIgnoreRow, h]]
      rw [ih tgt hnd]
      congr 1
      simp [List.filter_cons, h]
    · rw [List.foldl_cons, show insertIgnoreRow tgt a = tgt ++ [a] from by simp [insertIgnoreRow, h]]
      rw [ih _ hnd]
      have hcong : (rest.map DbRow.pk).filter (fun p => !hasPk (tgt ++ [a]) p)
          = (rest.map DbRow.pk).filter (fun p => !hasPk tgt p) := by
        apply List.filter_congr
        intro p hp
        have hpa : a.pk ≠ p := fun he => hna (he ▸ hp)
        simp [hasPk, List.any_append, hpa]
      rw [hcong]
      have hkeep : ((a.pk :: rest.map DbRow.pk).filter (fun p => !hasPk tgt p)).length
          = 1 + ((rest.map DbRow.pk).filter (fun p => !hasPk tgt p)).length := by
        simp [List.filter_cons, h]
        omega
      simp only [List.map_cons]
      rw [hkeep]
      simp [List.length_append]
      omega

lemma filter_hasPk_length (src tgt : List DbRow)
    (hsrc : (src.map DbRow.pk).Nodup) (htgt : (tgt.map DbRow.pk).Nodup)
    (hsub : ∀ r ∈ tgt, hasPk src r.pk = true) :
    ((src.map DbRow.pk).filter (fun p => hasPk tgt p)).length = tgt.length := by
  have h1 : ((src.map DbRow.pk).filter (fun p => hasPk tgt p)).Nodup := hsrc.filter _
  have s1 : ((src.map DbRow.pk).filter (fun p => hasPk tgt p)) ⊆ tgt.map DbRow.pk := by
    intro p hp
    exact (hasPk_iff tgt p).mp (List.mem_filter.mp hp).2
  have s2 : tgt.map DbRow.pk ⊆ ((src.map DbRow.pk).filter (fun p => hasPk tgt p)) := by
    intro p hp
    obtain ⟨r, hr, rfl⟩ := List.mem_map.mp hp
    refine List.mem_filter.mpr ⟨(hasPk_iff src r.pk).mp (hsub r hr), ?_⟩
    exact (hasPk_iff tgt r.pk).mpr (List.mem_map_of_mem _ hr)
  have le1 := (h1.subperm s1).length_le
  have le2 := (htgt.subperm s2).length_le
  have hm : (tgt.map DbRow.pk).length = tgt.length := List.length_map _ _
  omega

/-- Claim C6: for every source/target pair, `replicate_cloud_db`'s
per-table copy is idempotent under insert-if-absent semantics — running
it twice over the same source produces exactly the state (hence the row
count) of running it once — and rows already present on the target by
primary key are left untouched; moreover, when the source keys are
distinct and every target row's key already occurs in the source (the
10-source/3-existing scenario), the target ends with exactly one row per
source row. -/
theorem replicate_insert_if_absent (src tgt : List DbRow) :
    replicateTable src (replicateTable src tgt) = replicateTable src tgt ∧
    (∀ row ∈ tgt, row ∈ replicateTable src tgt) ∧
    ((src.map DbRow.pk).Nodup → (tgt.map DbRow.pk).Nodup →
      (∀ r ∈ tgt, hasPk src r.pk = true) →
      (replicateTable src tgt).length = src.length) := by
  refine ⟨?_, ?_, ?_⟩
  · unfold replicateTable
    by_cases he : src.isEmpty
    · simp [he]
    · simp only [he, if_false, Bool.false_eq_true]
      exact foldl_insertIgnore_all_present src _ (fun r hr => hasPk_foldl_covered src tgt r hr)
  · intro row hrow
    unfold replicateTable
    split
    · exact hrow
    · exact mem_foldl_insertIgnoreRow src tgt row hrow
  · intro hsrc htgt hsub
    unfold replicateTable
    by_cases he : src.isEmpty
    · simp only [he, if_true]
      have hsrc0 : src = [] := List.isEmpty_iff.mp he
      subst hsrc0
      cases tgt with
      | nil => rfl
      | cons r t =>
        have := hsub r (List.mem_cons_self r t)
        simp [hasPk] at this
    · simp only [he, if_false, Bool.false_eq_true]
      rw [length_foldl_insertIgnore src tgt hsrc]
      have hpart := length_filter_partition (src.map DbRow.pk) (fun p => hasPk tgt p)
      have hfl := filter_hasPk_length src tgt hsrc htgt hsub
      have hm : (src.map DbRow.pk).length = src.length := List.length_map _ _
      omega

/-- The ten source rows of Scenario D. -/
def srcTen : List DbRow :=
  [⟨1, "s1"⟩, ⟨2, "s2"⟩, ⟨3, "s3"⟩, ⟨4, "s4"⟩, ⟨5, "s5"⟩,
   ⟨6, "s6"⟩, ⟨7, "s7"⟩, ⟨8, "s8"⟩, ⟨9, "s9"⟩, ⟨10, "s10"⟩]

/-- The three target rows of Scenario D, already present by primary key
but with their own payloads. -/
def tgtThree : List DbRow :=
  [⟨1, "t1"⟩, ⟨2, "t2"⟩, ⟨3, "t3"⟩]

/-- Witness for C6 on Scenario D: ten source rows, three already on the
target by primary key; the target ends with exactly ten rows and a second
run changes nothing. -/
theorem replicate_insert_if_absent_witness :
    ((srcTen.map DbRow.pk).Nodup ∧ (tgtThree.map DbRow.pk).Nodup ∧
      ∀ r ∈ tgtThree, hasPk srcTen r.pk = true) ∧
    replicateTable srcTen (replicateTable srcTen tgtThree) = replicateTable srcTen tgtThree ∧
    (∀ row ∈ tgtThree, row ∈ replicateTable srcTen tgtThree) ∧
    (replicateTable srcTen tgtThree).length = srcTen.length :=
  ⟨⟨by decide, by decide, by decide⟩,
    (replicate_insert_if_absent srcTen tgtThree).1,
    (replicate_insert_if_absent srcTen tgtThree).2.1,
    (replicate_insert_if_absent srcTen tgtThree).2.2 (by decide) (by decide) (by decide)⟩

/-! ## Theorems: push reconciliation (C1) -/

lemma pushStep_pos {s : PushState} {t : Ticket} (h : hasMatch s.remote t = true) :
    pushStep s t = s := by
  simp [pushStep, h]

lemma pushStep_neg {s : PushState} {t : Ticket} (h : hasMatch s.remote t = false) :
    pushStep s t =
      { tickets := s.tickets.map (fun r => if r.id = t.id then { r with id := s.nextRemoteId } else r),
        atts := s.atts.map (fun a => if a.ticket_id = t.id then { a with ticket_id := s.nextRemoteId } else a),
        remote := s.remote ++ [{ t with id := s.nextRemoteId }],
        nextRemoteId := s.nextRemoteId + 1 } := by
  simp [pushStep, h]

lemma hasMatch_eq_false_iff (remote : List Ticket) (t : Ticket) :
    hasMatch remote t = false ↔ ∀ r ∈ remote, reconMatch r t = false := by
  simp [hasMatch, List.any_eq_false]

lemma reconMatch_eq_false_of_key_ne {a b : Ticket}
    (h : (a.title, a.logged_by, a.asset_id) ≠ (b.title, b.logged_by, b.asset_id)) :
    reconMatch a b = false := by
  by_contra hne
  rw [Bool.not_eq_false] at hne
  simp only [reconMatch, Bool.and_eq_true, beq_iff_eq] at hne
  obtain ⟨⟨h1, h2⟩, h3⟩ := hne
  exact h (by rw [h1, h2, h3])

lemma push_absent (l : List Ticket) :
    ∀ (s : PushState) (x : Nat),
    x < s.nextRemoteId →
    (∀ tk ∈ s.tickets, tk.id ≠ x) →
    (∀ a ∈ s.atts, a.ticket_id ≠ x) →
    (∀ tk ∈ (l.foldl pushStep s).tickets, tk.id ≠ x) ∧
    (∀ a ∈ (l.foldl pushStep s).atts, a.ticket_id ≠ x) := by
  induction l with
  | nil =>
    intro s x _ h1 h2
    exact ⟨h1, h2⟩
  | cons t rest ih =>
    intro s x hx h1 h2
    rw [List.foldl_cons]
    cases hm : hasMatch s.remote t with
    | true =>
      rw [pushStep_pos hm]
      exact ih s x hx h1 h2
    | false =>
      rw [pushStep_neg hm]
      refine ih _ x ?_ ?_ ?_
      · exact Nat.lt_succ_of_lt hx
      · intro tk htk
        obtain ⟨r, hr, rfl⟩ := List.mem_map.mp htk
        by_cases hrid : r.id = t.id
        · simp only [hrid, if_pos rfl]
          exact Nat.ne_of_gt hx
        · simp only [if_neg hrid]
          exact h1 r hr
      · intro a ha
        obtain ⟨b, hb, rfl⟩ := List.mem_map.mp ha
        by_cases hbid : b.ticket_id = t.id
        · simp only [hbid, if_pos rfl]
          exact Nat.ne_of_gt hx
        · simp only [if_neg hbid]
          exact h2 b hb

lemma push_persist_ticket (l : List Ticket) :
    ∀ (s : PushState) (B : Nat) (tk : Ticket),
    (∀ t' ∈ l, t'.id < B) → B ≤ tk.id → tk ∈ s.tickets →
    tk ∈ (l.foldl pushStep s).tickets := by
  induction l with
  | nil =>
    intro s _ tk _ _ hmem
    exact hmem
  | cons t rest ih =>
    intro s B tk hl hB hmem
    rw [List.foldl_cons]
    cases hm : hasMatch s.remote t with
    | true =>
      rw [pushStep_pos hm]
      exact ih s B tk (fun t2 h2 => hl t2 (List.mem_cons_of_mem t h2)) hB hmem
    | false =>
      rw [pushStep_neg hm]
      refine ih _ B tk (fun t2 h2 => hl t2 (List.mem_cons_of_mem t h2)) hB ?_
      have hne : tk.id ≠ t.id := by
        have := hl t (List.mem_cons_self t rest)
        omega
      have hmap := List.mem_map_of_mem
        (fun r : Ticket => if r.id = t.id then { r with id := s.nextRemoteId } else r) hmem
      simpa only [if_neg hne] using hmap

lemma push_persist_att (l : List Ticket) :
    ∀ (s : PushState) (B : Nat) (a : Attachment),
    (∀ t' ∈ l, t'.id < B) → B ≤ a.ticket_id → a ∈ s.atts →
    a ∈ (l.foldl pushStep s).atts := by
  induction l with
  | nil =>
    intro s _ a _ _ hmem
    exact hmem
  | cons t rest ih =>
    intro s B a hl hB hmem
    rw [List.foldl_cons]
    cases hm : hasMatch s.remote t with
    | true =>
      rw [pushStep_pos hm]
      exact ih s B a (fun t2 h2 => hl t2 (List.mem_cons_of_mem t h2)) hB hmem
    | false =>
      rw [pushStep_neg hm]
      refine ih _ B a (fun t2 h2 => hl t2 (List.mem_cons_of_mem t h2)) hB ?_
      have hne : a.ticket_id ≠ t.id := by
        have := hl t (List.mem_cons_self t rest)
        omega
      have hmap := List.mem_map_of_mem
        (fun b : Attachment => if b.ticket_id = t.id then { b with ticket_id := s.nextRemoteId } else b) hmem
      simpa only [if_neg hne] using hmap

lemma push_remote_mono (l : List Ticket) :
    ∀ (s : PushState) (r : Ticket), r ∈ s.remote → r ∈ (l.foldl pushStep s).remote := by
  induction l with
  | nil =>
    intro s r h
    exact h
  | cons t rest ih =>
    intro s r h
    rw [List.foldl_cons]
    cases hm : hasMatch s.remote t with
    | true =>
      rw [pushStep_pos hm]
      exact ih s r h
    | false =>
      rw [pushStep_neg hm]
      exact ih _ r (List.mem_append_left _ h)

lemma push_main (l : List Ticket) :
    ∀ (s : PushState) (t : Ticket),
    t ∈ l →
    t ∈ s.tickets →
    (∀ t' ∈ l, t'.id < s.nextRemoteId) →
    (∀ r ∈ s.remote, reconMatch r t = false) →
    List.Pairwise (fun a b => a.id ≠ b.id) l →
    List.Pairwise (fun a b : Ticket =>
      (a.title, a.logged_by, a.asset_id) ≠ (b.title, b.logged_by, b.asset_id)) l →
    ∃ n, s.nextRemoteId ≤ n ∧
      { t with id := n } ∈ (l.foldl pushStep s).tickets ∧
      { t with id := n } ∈ (l.foldl pushStep s).remote ∧
      (∀ a ∈ s.atts, a.ticket_id = t.id →
        { a with ticket_id := n } ∈ (l.foldl pushStep s).atts) ∧
      (∀ tk ∈ (l.foldl pushStep s).tickets, tk.id ≠ t.id) ∧
      (∀ a ∈ (l.foldl pushStep s).atts, a.ticket_id ≠ t.id) := by
  induction l with
  | nil =>
    intro s t ht
    exact absurd ht (List.not_mem_nil t)
  | cons hd rest ih =>
    intro s t ht hmem hlt hnom hpid hpkey
    rw [List.foldl_cons]
    rcases List.mem_cons.mp ht with rfl | htl
    · -- t is the ticket being processed at this step
      have hhm : hasMatch s.remote t = false := (hasMatch_eq_false_iff s.remote t).mpr hnom
      rw [pushStep_neg hhm]
      have htlt : t.id < s.nextRemoteId := hlt t (List.mem_cons_self t rest)
      have hrest : ∀ t2 ∈ rest, t2.id < s.nextRemoteId :=
        fun t2 h2 => hlt t2 (List.mem_cons_of_mem t h2)
      refine ⟨s.nextRemoteId, le_refl _, ?_, ?_, ?_, ?_, ?_⟩
      · refine push_persist_ticket rest _ s.nextRemoteId _ hrest (le_refl _) ?_
        have hmap := List.mem_map_of_mem
          (fun r : Ticket => if r.id = t.id then { r with id := s.nextRemoteId } else r) hmem
        simpa only [if_pos rfl] using hmap
      · refine push_remote_mono rest _ _ ?_
        exact List.mem_append_right _ (List.mem_singleton.mpr rfl)
      · intro a ha hat
        refine push_persist_att rest _ s.nextRemoteId _ hrest (le_refl _) ?_
        have hmap := List.mem_map_of_mem
          (fun b : Attachment => if b.ticket_id = t.id then { b with ticket_id := s.nextRemoteId } else b) ha
        simpa only [if_pos hat] using hmap
      · refine (push_absent rest _ t.id (Nat.lt_succ_of_lt htlt) ?_ ?_).1
        · intro tk htk
          obtain ⟨r, hr, rfl⟩ := List.mem_map.mp htk
          by_cases hrid : r.id = t.id
          · simp only [hrid, if_pos rfl]
            exact Nat.ne_of_gt htlt
          · simp only [if_neg hrid]
            exact hrid
        · intro a ha
          obtain ⟨b, hb, rfl⟩ := List.mem_map.mp ha
          by_cases hbid : b.ticket_id = t.id
          · simp only [hbid, if_pos rfl]
            exact Nat.ne_of_gt htlt
          · simp only [if_neg hbid]
            exact hbid
      · refine (push_absent rest _ t.id (Nat.lt_succ_of_lt htlt) ?_ ?_).2
        · intro tk htk
          obtain ⟨r, hr, rfl⟩ := List.mem_map.mp htk
          by_cases hrid : r.id = t.id
          · simp only [hrid, if_pos rfl]
            exact Nat.ne_of_gt htlt
          · simp only [if_neg hrid]
            exact hrid
        · intro a ha
          obtain ⟨b, hb, rfl⟩ := List.mem_map.mp ha
          by_cases hbid : b.ticket_id = t.id
          · simp only [hbid, if_pos rfl]
            exact Nat.ne_of_gt htlt
          · simp only [if_neg hbid]
            exact hbid
    · -- t is processed later in the snapshot
      have hid_hd : ∀ t2 ∈ rest, hd.id ≠ t2.id := (List.pairwise_cons.mp hpid).1
      have hkey_hd : ∀ t2 ∈ rest,
          (hd.title, hd.logged_by, hd.asset_id) ≠ (t2.title, t2.logged_by, t2.asset_id) :=
        (List.pairwise_cons.mp hpkey).1
      cases hm : hasMatch s.remote hd with
      | true =>
        rw [pushStep_pos hm]
        exact ih s t htl hmem (fun t2 h2 => hlt t2 (List.mem_cons_of_mem hd h2)) hnom
          (List.pairwise_cons.mp hpid).2 (List.pairwise_cons.mp hpkey).2
      | false =>
        rw [pushStep_neg hm]
        have htne : t.id ≠ hd.id := (hid_hd t htl).symm
        have hmem' : t ∈ (s.tickets.map
            (fun r => if r.id = hd.id then { r with id := s.nextRemoteId } else r)) := by
          have hmap := List.mem_map_of_mem
            (fun r : Ticket => if r.id = hd.id then { r with id := s.nextRemoteId } else r) hmem
          simpa only [if_neg htne] using hmap
        obtain ⟨n, hn, m1, m2, m3, m4, m5⟩ := ih
          { tickets := s.tickets.map
              (fun r => if r.id = hd.id then { r with id := s.nextRemoteId } else r),
            atts := s.atts.map
              (fun b => if b.ticket_id = hd.id then { b with ticket_id := s.nextRemoteId } else b),
            remote := s.remote ++ [{ hd with id := s.nextRemoteId }],
            nextRemoteId := s.nextRemoteId + 1 } t htl hmem'
          (fun t2 h2 => Nat.lt_succ_of_lt (hlt t2 (List.mem_cons_of_mem hd h2)))
          (by
            intro r hr
            rcases List.mem_append.mp hr with hr1 | hr1
            · exact hnom r hr1
            · rw [List.mem_singleton.mp hr1]
              exact reconMatch_eq_false_of_key_ne (hkey_hd t htl))
          (List.pairwise_cons.mp hpid).2 (List.pairwise_cons.mp hpkey).2
        have hn' : s.nextRemoteId + 1 ≤ n := hn
        refine ⟨n, by omega, m1, m2, ?_, m4, m5⟩
        intro a ha hat
        refine m3 _ ?_ hat
        have hane : a.ticket_id ≠ hd.id := by rw [hat]; exact htne
        have hmap := List.mem_map_of_mem
          (fun b : Attachment => if b.ticket_id = hd.id then { b with ticket_id := s.nextRemoteId } else b) ha
        simpa only [if_neg hane] using hmap

/-- Claim C1: for every local ticket whose reconciliation key (title,
logged_by, asset_id) matches no remote ticket, `_push_local_tickets`
inserts that ticket remotely, obtains the remote AUTO_INCREMENT key `n`,
rewrites the local ticket row's id from the old local id to `n`, and
rewrites every `ticket_attachments` row that pointed at the old local id
to `n`; afterwards no local ticket row, and no attachment row, references
the old local id. Hypotheses: remote-assigned keys are fresh (the cloud
counter exceeds every local id, as with AUTO_INCREMENT against ids the
remote itself once assigned), local ids are distinct (they form the
primary key), and local reconciliation keys are pairwise distinct. -/
theorem push_reconciliation (tickets : List Ticket) (atts : List Attachment)
    (remote : List Ticket) (c : Nat)
    (hfresh : ∀ t ∈ tickets, t.id < c)
    (hids : List.Pairwise (fun a b => a.id ≠ b.id) tickets)
    (hkeys : List.Pairwise (fun a b : Ticket =>
      (a.title, a.logged_by, a.asset_id) ≠ (b.title, b.logged_by, b.asset_id)) tickets)
    (t : Ticket) (hmem : t ∈ tickets)
    (hnomatch : ∀ r ∈ remote, reconMatch r t = false) :
    ∃ n, c ≤ n ∧
      { t with id := n } ∈ (pushLocalTickets tickets atts remote c).tickets ∧
      { t with id := n } ∈ (pushLocalTickets tickets atts remote c).remote ∧
      (∀ a ∈ atts, a.ticket_id = t.id →
        { a with ticket_id := n } ∈ (pushLocalTickets tickets atts remote c).atts) ∧
      (∀ tk ∈ (pushLocalTickets tickets atts remote c).tickets, tk.id ≠ t.id) ∧
      (∀ a ∈ (pushLocalTickets tickets atts remote c).atts, a.ticket_id ≠ t.id) :=
  push_main tickets ⟨tickets, atts, remote, c⟩ t hmem hmem hfresh hnomatch hids hkeys

/-- Scenario C's ticket: created offline with local id 7. -/
def vpnTicket : Ticket :=
  ⟨7, 1, "Incident", "VPN Down", "VPN outage since 9am", "High", "Open",
   "jdoe", "2024-01-02 09:10:00", "2024-01-02 09:10:00"⟩

/-- Scenario C's attachment, referencing local ticket_id 7. -/
def vpnAttachment : Attachment :=
  ⟨1, 7, "trace.log", "2D_Storage/trace.log", "2024-01-02 09:11:00"⟩

/-- Witness for C1 on Scenario C: one local ticket with id 7 and one
attachment pointing at it, an empty remote whose counter stands at 42;
after the push some remote id at least 42 has replaced every local
reference to 7. -/
theorem push_reconciliation_witness :
    ((∀ t ∈ [vpnTicket], t.id < 42) ∧
      (∀ r ∈ ([] : List Ticket), reconMatch r vpnTicket = false)) ∧
    ∃ n, 42 ≤ n ∧
      { vpnTicket with id := n } ∈ (pushLocalTickets [vpnTicket] [vpnAttachment] [] 42).tickets ∧
      { vpnTicket with id := n } ∈ (pushLocalTickets [vpnTicket] [vpnAttachment] [] 42).remote ∧
      (∀ a ∈ [vpnAttachment], a.ticket_id = vpnTicket.id →
        { a with ticket_id := n } ∈ (pushLocalTickets [vpnTicket] [vpnAttachment] [] 42).atts) ∧
      (∀ tk ∈ (pushLocalTickets [vpnTicket] [vpnAttachment] [] 42).tickets, tk.id ≠ vpnTicket.id) ∧
      (∀ a ∈ (pushLocalTickets [vpnTicket] [vpnAttachment] [] 42).atts, a.ticket_id ≠ vpnTicket.id) :=
  ⟨⟨by decide, by decide⟩,
    push_reconciliation [vpnTicket] [vpnAttachment] [] 42 (by decide)
      (by decide) (by decide) vpnTicket (by decide) (by decide)⟩

end Mandrake
